import Mathlib

/-!
Verification of the gfwlist2x parsing core (gfwlist2x.py).

The five regular expressions of `GfwList` are embedded as executable
character-list matchers with Python `re` backtracking semantics (for each
pattern the greedy first-match behaviour is deterministic, so the matchers
are plain recursive functions).  `_parse_line`, `parse`, `add_extra_domains`
and `run` are embedded on top of them; Python exceptions are modelled with
`Except`, the mutable `self.domains` set with explicit `Finset String`
state passing, and `print` diagnostics with returned message lists.
-/

/-- The character class `[a-zA-Z0-9]` of the source patterns. -/
def isAlnum (c : Char) : Bool := c.isAlpha || c.isDigit

/-- The character class `[-a-zA-Z0-9]` of the source patterns. -/
def isLabelChar (c : Char) : Bool := c == '-' || isAlnum c

/-- Boolean prefix test on character lists (Python `str.startswith` and the
`^`-anchored literal alternatives of the patterns). -/
def startsWithL : List Char → List Char → Bool
  | [], _ => true
  | _ :: _, [] => false
  | p :: ps, c :: cs => p == c && startsWithL ps cs

/-- Match `[0-9]+\.` at the head: a nonempty digit run followed by a literal
dot; returns the remainder.  Greedy matching is deterministic here because a
shorter digit run always leaves a digit where the dot is required. -/
def digitsDot (l : List Char) : Option (List Char) :=
  if (l.takeWhile Char.isDigit).isEmpty then none
  else
    match l.dropWhile Char.isDigit with
    | '.' :: r => some r
    | _ => none

/-- Match `[0-9]+\.[0-9]+\.[0-9]+\.[0-9]+` at the head of the list. -/
def quadAt (l : List Char) : Bool :=
  match digitsDot l with
  | some r1 =>
    match digitsDot r1 with
    | some r2 =>
      match digitsDot r2 with
      | some r3 =>
        match r3 with
        | c :: _ => c.isDigit
        | [] => false
      | none => false
    | none => false
  | none => false

/-- Unanchored search for a dotted-quad IPv4 literal.  The optional
`(https?://){0,1}` prefix of `ignore_pattern` does not change which strings
contain a match, since the prefix is optional. -/
def hasIPv4 : List Char → Bool
  | [] => false
  | c :: r => quadAt (c :: r) || hasIPv4 r

/-- `ignore_pattern = ^\!|\[|^@@|(https?://){0,1}[0-9]+\.[0-9]+\.[0-9]+\.[0-9]+`
used as a boolean `search` test. -/
def ignoreMatch (l : List Char) : Bool :=
  startsWithL ['!'] l || l.contains '[' || startsWithL ['@', '@'] l || hasIPv4 l

/-- The `(\|\|?)?` part of `head_filter_pattern`: strip a leading `||`,
else a leading `|`, else nothing (greedy preference for `||`). -/
def dropBars : List Char → List Char
  | '|' :: '|' :: r => r
  | '|' :: r => r
  | l => l

/-- The `(https?://)?` part of `head_filter_pattern`: strip a leading
`https://`, else a leading `http://`, else nothing. -/
def dropScheme (l : List Char) : List Char :=
  if startsWithL (("https://").toList) l then l.drop 8
  else if startsWithL (("http://").toList) l then l.drop 7
  else l

/-- `head_filter_pattern.sub('', line)`: the pattern is `^`-anchored, so the
only replaced match is the (possibly empty) one at position 0. -/
def headFilter (l : List Char) : List Char := dropScheme (dropBars l)

/-- `tail_filter_pattern.sub('', line)` with pattern `/.*$|%2F.*$`: delete
everything from the leftmost `/` or `%2F` to the end of the line. -/
def tailFilter : List Char → List Char
  | [] => []
  | '/' :: _ => []
  | '%' :: '2' :: 'F' :: _ => []
  | c :: r => c :: tailFilter r

/-- Greedy matcher for the continuation `[-a-zA-Z0-9]*(\.[a-zA-Z0-9][-a-zA-Z0-9]*)*`
of the domain shape, entered just after its first `[a-zA-Z0-9]` character.
Returns the consumed characters, the rest, and the number of `\.[a-zA-Z0-9]…`
groups consumed.  Greedy matching is deterministic: stopping earlier always
leaves a label character or a dot where the follow-up patterns (`$`,
`(\*[a-zA-Z0-9]*)?$`, search-end) cannot continue. -/
def mdlTail : List Char → List Char × List Char × Nat
  | [] => ([], [], 0)
  | c :: r =>
    if c = '.' then
      match r with
      | c2 :: r2 =>
        if isAlnum c2 then
          ('.' :: c2 :: (mdlTail r2).1, (mdlTail r2).2.1, (mdlTail r2).2.2 + 1)
        else ([], c :: r, 0)
      | [] => ([], c :: r, 0)
    else if isLabelChar c then (c :: (mdlTail r).1, (mdlTail r).2.1, (mdlTail r).2.2)
    else ([], c :: r, 0)

/-- Greedy match of `domain_pattern`
(`[a-zA-Z0-9][-a-zA-Z0-9]*(\.[a-zA-Z0-9][-a-zA-Z0-9]*)+`) at the head of the
list; `none` when fewer than one dot group follows the first label. -/
def matchCore (l : List Char) : Option (List Char × List Char) :=
  match l with
  | [] => none
  | c :: r =>
    if isAlnum c then
      if (mdlTail r).2.2 = 0 then none
      else some (c :: (mdlTail r).1, (mdlTail r).2.1)
    else none

/-- Unanchored `domain_pattern.search` used as a boolean test. -/
def domainSearch : List Char → Bool
  | [] => false
  | c :: r => (matchCore (c :: r)).isSome || domainSearch r

/-- The optional prefix `(([a-zA-Z0-9]*\*[-a-zA-Z0-9]*)?(\.))?` of
`wildcard_pattern`.  The three alternatives (star segment plus dot, bare
dot, absent) are mutually exclusive on every input, so no backtracking
between them is observable. -/
def wildcardStrip (l : List Char) : List Char :=
  match l.dropWhile isAlnum with
  | '*' :: r2 =>
    (match r2.dropWhile isLabelChar with
     | '.' :: r4 => r4
     | _ => l)
  | _ =>
    (match l with
     | '.' :: t => t
     | _ => l)

/-- The optional suffix `(\*[a-zA-Z0-9]*)?$` of `wildcard_pattern`. -/
def suffixOk : List Char → Bool
  | [] => true
  | '*' :: r => r.all isAlnum
  | _ => false

/-- `wildcard_pattern.search(line)` restricted to its fourth capture group
(`groups()[3]`), the core domain shape; `none` when the anchored pattern has
no match. -/
def wildcardGroup4 (l : List Char) : Option (List Char) :=
  match matchCore (wildcardStrip l) with
  | some dr => if suffixOk dr.2 then some dr.1 else none
  | none => none

/-- Diagnostic printed for a discarded regex-style rule. -/
def manualMsg (line : String) : String :=
  ("please add domain manually for ignored regex rule: ") ++ line

/-- Diagnostic printed for a regex-style rule whose domain was extracted. -/
def infoMsg (stripped domain : String) : String :=
  ("regex rule ") ++ stripped ++ (" -> ") ++ domain

/-- The exception raised at `wildcard_pattern.search(line).groups()` when the
search returned `None`. -/
def attributeErrorMsg : String :=
  "AttributeError: NoneType object has no attribute groups"

/-- `line.startswith('/')`, the regex-style-rule tag of `_parse_line`. -/
def isRegexRule (line : String) : Bool :=
  match line.toList with
  | '/' :: _ => true
  | _ => false

/-- `GfwList._parse_line`.  Returns the extracted domain (if any) together
with the diagnostics printed, or the uncaught exception. -/
def parseLine (line : String) : Except String (Option String × List String) :=
  if ignoreMatch line.toList then
    .ok (none, if isRegexRule line then [manualMsg line] else [])
  else
    if domainSearch (tailFilter (headFilter line.toList)) then
      match wildcardGroup4 (tailFilter (headFilter line.toList)) with
      | some d =>
        .ok (some (String.mk d),
          if isRegexRule line then
            [infoMsg (String.mk (tailFilter (headFilter line.toList))) (String.mk d)]
          else [])
      | none => .error attributeErrorMsg
    else
      .ok (none, if isRegexRule line then [manualMsg line] else [])

/-- A Python line-boundary character (`str.splitlines`). -/
def isLineBreak (c : Char) : Bool :=
  c == '\n' || c == '\r' || c == '\x0b' || c == '\x0c' ||
  c == '\x1c' || c == '\x1d' || c == '\x1e' || c == '\x85' ||
  c == '\u2028' || c == '\u2029'

/-- Worker for `splitlines`: `cur` holds the current line reversed.  A
terminator at the end of the input produces no trailing empty line. -/
def splitlinesGo (cur : List Char) : List Char → List (List Char)
  | [] => [cur.reverse]
  | '\r' :: '\n' :: r =>
    cur.reverse :: (match r with | [] => [] | _ :: _ => splitlinesGo [] r)
  | c :: r =>
    if isLineBreak c then
      cur.reverse :: (match r with | [] => [] | _ :: _ => splitlinesGo [] r)
    else splitlinesGo (c :: cur) r

/-- Python `str.splitlines`. -/
def splitlines (s : String) : List String :=
  match s.toList with
  | [] => []
  | l => (splitlinesGo [] l).map String.mk

/-- The `for line in lines[0:]` loop of `GfwList.parse`, threading
`self.domains`; a raised exception carries the set accumulated so far. -/
def parseLines (doms : Finset String) :
    List String → Except (String × Finset String) (Finset String)
  | [] => .ok doms
  | ln :: rest =>
    match parseLine ln with
    | .ok (some d, _) => parseLines (insert d doms) rest
    | .ok (none, _) => parseLines doms rest
    | .error e => .error (e, doms)

/-- `GfwList.parse`.  `ok (false, _)` models the explicit `return False` on
a validation failure, `ok (true, _)` the implicit `None` returned after the
line loop; either way the second component is `self.domains` afterwards. -/
def parse (doms : Finset String) (data : String) :
    Except (String × Finset String) (Bool × Finset String) :=
  match splitlines data with
  | [] => .ok (false, doms)
  | first :: rest =>
    if startsWithL (("[AutoProxy").toList) first.toList then
      match parseLines doms (first :: rest) with
      | .ok s => .ok (true, s)
      | .error e => .error e
    else .ok (false, doms)

/-- The set held by `self.domains` after `parse`, whether or not the line
loop raised. -/
def parseSet : Except (String × Finset String) (Bool × Finset String) → Finset String
  | .ok bs => bs.2
  | .error es => es.2

/-- The set held by `self.domains` after the line loop alone, whether or not
it raised. -/
def exSet : Except (String × Finset String) (Finset String) → Finset String
  | .ok s => s
  | .error es => es.2

/-- The hard-coded google-family list of `add_extra_domains`. -/
def googleDomains : List String :=
  [ "google.com", "google.ad", "google.ae", "google.com.af", "google.com.ag",
   "google.com.ai", "google.al", "google.am", "google.co.ao", "google.com.ar",
   "google.as", "google.at", "google.com.au", "google.az", "google.ba",
   "google.com.bd", "google.be", "google.bf", "google.bg", "google.com.bh",
   "google.bi", "google.bj", "google.com.bn", "google.com.bo",
   "google.com.br", "google.bs", "google.bt", "google.co.bw", "google.by",
   "google.com.bz", "google.ca", "google.cd", "google.cf", "google.cg",
   "google.ch", "google.ci", "google.co.ck", "google.cl", "google.cm",
   "google.cn", "google.com.co", "google.co.cr", "google.com.cu", "google.cv",
   "google.com.cy", "google.cz", "google.de", "google.dj", "google.dk",
   "google.dm", "google.com.do", "google.dz", "google.com.ec", "google.ee",
   "google.com.eg", "google.es", "google.com.et", "google.fi",
   "google.com.fj", "google.fm", "google.fr", "google.ga", "google.ge",
   "google.gg", "google.com.gh", "google.com.gi", "google.gl", "google.gm",
   "google.gp", "google.gr", "google.com.gt", "google.gy", "google.com.hk",
   "google.hn", "google.hr", "google.ht", "google.hu", "google.co.id",
   "google.ie", "google.co.il", "google.im", "google.co.in", "google.iq",
   "google.is", "google.it", "google.je", "google.com.jm", "google.jo",
   "google.co.jp", "google.co.ke", "google.com.kh", "google.ki", "google.kg",
   "google.co.kr", "google.com.kw", "google.kz", "google.la", "google.com.lb",
   "google.li", "google.lk", "google.co.ls", "google.lt", "google.lu",
   "google.lv", "google.com.ly", "google.co.ma", "google.md", "google.me",
   "google.mg", "google.mk", "google.ml", "google.com.mm", "google.mn",
   "google.ms", "google.com.mt", "google.mu", "google.mv", "google.mw",
   "google.com.mx", "google.com.my", "google.co.mz", "google.com.na",
   "google.com.nf", "google.com.ng", "google.com.ni", "google.ne",
   "google.nl", "google.no", "google.com.np", "google.nr", "google.nu",
   "google.co.nz", "google.com.om", "google.com.pa", "google.com.pe",
   "google.com.pg", "google.com.ph", "google.com.pk", "google.pl",
   "google.pn", "google.com.pr", "google.ps", "google.pt", "google.com.py",
   "google.com.qa", "google.ro", "google.ru", "google.rw", "google.com.sa",
   "google.com.sb", "google.sc", "google.se", "google.com.sg", "google.sh",
   "google.si", "google.sk", "google.com.sl", "google.sn", "google.so",
   "google.sm", "google.sr", "google.st", "google.com.sv", "google.td",
   "google.tg", "google.co.th", "google.com.tj", "google.tk", "google.tl",
   "google.tm", "google.tn", "google.to", "google.com.tr", "google.tt",
   "google.com.tw", "google.co.tz", "google.com.ua", "google.co.ug",
   "google.co.uk", "google.com.uy", "google.co.uz", "google.com.vc",
   "google.co.ve", "google.vg", "google.co.vi", "google.com.vn", "google.vu",
   "google.ws", "google.rs", "google.co.za", "google.co.zm", "google.co.zw",
   "google.cat"]
/-- The hard-coded blogspot-family list of `add_extra_domains`. -/
def blogspotDomains : List String :=
  [ "blogspot.ca", "blogspot.co.uk", "blogspot.com", "blogspot.com.ar",
   "blogspot.com.au", "blogspot.com.br", "blogspot.com.by", "blogspot.com.co",
   "blogspot.com.cy", "blogspot.com.ee", "blogspot.com.eg", "blogspot.com.es",
   "blogspot.com.mt", "blogspot.com.ng", "blogspot.com.tr", "blogspot.com.uy",
   "blogspot.de", "blogspot.gr", "blogspot.in", "blogspot.mx", "blogspot.ch",
   "blogspot.fr", "blogspot.ie", "blogspot.it", "blogspot.pt", "blogspot.ro",
   "blogspot.sg", "blogspot.be", "blogspot.no", "blogspot.se", "blogspot.jp",
   "blogspot.in", "blogspot.ae", "blogspot.al", "blogspot.am", "blogspot.ba",
   "blogspot.bg", "blogspot.ch", "blogspot.cl", "blogspot.cz", "blogspot.dk",
   "blogspot.fi", "blogspot.gr", "blogspot.hk", "blogspot.hr", "blogspot.hu",
   "blogspot.ie", "blogspot.is", "blogspot.kr", "blogspot.li", "blogspot.lt",
   "blogspot.lu", "blogspot.md", "blogspot.mk", "blogspot.my", "blogspot.nl",
   "blogspot.no", "blogspot.pe", "blogspot.qa", "blogspot.ro", "blogspot.ru",
   "blogspot.se", "blogspot.sg", "blogspot.si", "blogspot.sk", "blogspot.sn",
   "blogspot.tw", "blogspot.ug", "blogspot.cat"]

/-- `GfwList.add_extra_domains`: two `update` calls and one `add`. -/
def addExtraDomains (doms : Finset String) : Finset String :=
  insert ("twimg.edgesuite.net")
    ((doms ∪ googleDomains.toFinset) ∪ blogspotDomains.toFinset)

/-- Outcome of `GfwList.run`: the early `return` of the mode check, normal
completion (recording whether an output file was written, whether the
downloaded list was saved to the gfwlist file, and the final domain set), or
an uncaught exception. -/
inductive RunResult where
  | earlyReturn
  | finished (wroteOutput : Bool) (wroteCopy : Bool) (domains : Finset String)
  | raised (msg : String)
deriving DecidableEq

/-- `GfwList.run` on a fresh `GfwList` (empty domain set), with the external
I/O passed in as data: `fetched` is the base64-decoded text of a successful
download (`none` models `fetch` returning `None`, on which
`base64.b64decode(None)` raises a `TypeError`), and `fileContent` is the text
read from the local gfwlist file.  The return value of `self.parse(data)` is
discarded, exactly as in the source. -/
def runGfw (download : Bool) (fetched : Option String) (gfwlistFname : Option String)
    (fileContent : String) (format : String) : RunResult :=
  if download then
    match fetched with
    | none => .raised ("TypeError: argument should be a bytes-like object")
    | some data =>
      match parse ∅ data with
      | .error e => .raised e.1
      | .ok bs =>
        .finished (format == "raw" || format == "adguardhome")
          gfwlistFname.isSome (addExtraDomains bs.2)
  else
    match gfwlistFname with
    | some _ =>
      match parse ∅ fileContent with
      | .error e => .raised e.1
      | .ok bs =>
        .finished (format == "raw" || format == "adguardhome")
          false (addExtraDomains bs.2)
    | none => .earlyReturn

/-- A domain label as required by the spec: nonempty, first character
alphanumeric, remaining characters alphanumeric or hyphen. -/
def isLabel : List Char → Bool
  | [] => false
  | c :: r => isAlnum c && r.all isLabelChar

/-- Split a character list at every dot (a trailing dot yields a trailing
empty chunk, matching the spec notion of leading/trailing dots). -/
def splitDot : List Char → List (List Char)
  | [] => [[]]
  | c :: r =>
    if c = '.' then [] :: splitDot r
    else
      match splitDot r with
      | [] => [[c]]
      | h :: t => (c :: h) :: t

/-- The spec shape CanonicalDomain: two or more dot-separated labels, each
starting alphanumeric and continuing with alphanumerics or hyphens; excludes
leading/trailing dots, empty labels and wildcard characters. -/
def isCanonicalDomain (s : String) : Bool :=
  decide (2 ≤ (splitDot s.toList).length) && (splitDot s.toList).all isLabel

theorem isLabel_chars : ∀ p : List Char, isLabel p = true → p.all isLabelChar = true
  | c :: r, h => by
    obtain ⟨h1, h2⟩ : isAlnum c = true ∧ r.all isLabelChar = true := by
      simpa [isLabel] using h
    simp [List.all_cons, h2, isLabelChar, h1]

theorem isLabelChar_ne_dot (c : Char) (h : isLabelChar c = true) : ¬ c = '.' := by
  intro hc
  subst hc
  exact absurd h (by decide)

theorem isLabel_push (p : List Char) (c : Char) (hp : isLabel p = true)
    (hc : isLabelChar c = true) : isLabel (p ++ [c]) = true := by
  cases p with
  | nil => simp [isLabel] at hp
  | cons a r =>
    obtain ⟨h1, h2⟩ : isAlnum a = true ∧ r.all isLabelChar = true := by
      simpa [isLabel] using hp
    simp [isLabel, h1, List.all_append, h2, hc]

theorem splitDot_label_chars : ∀ x : List Char, x.all isLabelChar = true → splitDot x = [x]
  | [], _ => rfl
  | c :: r, h => by
    obtain ⟨hc, hr⟩ : isLabelChar c = true ∧ r.all isLabelChar = true := by simpa using h
    simp [splitDot, isLabelChar_ne_dot c hc, splitDot_label_chars r hr]

theorem splitDot_append_dot : ∀ (x m : List Char), x.all isLabelChar = true →
    splitDot (x ++ '.' :: m) = x :: splitDot m
  | [], m, _ => by simp [splitDot]
  | c :: r, m, h => by
    obtain ⟨hc, hr⟩ : isLabelChar c = true ∧ r.all isLabelChar = true := by simpa using h
    simp [splitDot, isLabelChar_ne_dot c hc, splitDot_append_dot r m hr]

theorem mdlTail_canon (l : List Char) : ∀ pre : List Char, isLabel pre = true →
    (splitDot (pre ++ (mdlTail l).1)).all isLabel = true ∧
    (splitDot (pre ++ (mdlTail l).1)).length = (mdlTail l).2.2 + 1 := by
  induction l using mdlTail.induct with
  | case1 =>
    intro pre hpre
    simp [mdlTail, splitDot_label_chars pre (isLabel_chars pre hpre), hpre]
  | case2 c2 tail halnum ih =>
    intro pre hpre
    obtain ⟨ia, il⟩ := ih [c2] (by simp [isLabel, halnum])
    have heq : pre ++ (mdlTail ('.' :: c2 :: tail)).1 =
        pre ++ '.' :: ([c2] ++ (mdlTail tail).1) := by
      simp [mdlTail, halnum]
    have hk : (mdlTail ('.' :: c2 :: tail)).2.2 = (mdlTail tail).2.2 + 1 := by
      simp [mdlTail, halnum]
    rw [heq, splitDot_append_dot pre _ (isLabel_chars pre hpre), hk]
    constructor
    · simp only [List.all_cons, Bool.and_eq_true]
      exact ⟨hpre, by simpa using ia⟩
    · simp only [List.length_cons]
      have h2 : (splitDot ([c2] ++ (mdlTail tail).1)).length = (mdlTail tail).2.2 + 1 := il
      omega
  | case3 c2 tail halnum =>
    intro pre hpre
    simp [mdlTail, halnum, splitDot_label_chars pre (isLabel_chars pre hpre), hpre]
  | case4 =>
    intro pre hpre
    simp [mdlTail, splitDot_label_chars pre (isLabel_chars pre hpre), hpre]
  | case5 c r hne hlc ih =>
    intro pre hpre
    have hmd : mdlTail (c :: r) = (c :: (mdlTail r).1, (mdlTail r).2) := by
      rw [mdlTail.eq_def]
      simp [hne, hlc]
    rw [hmd]
    have heq : pre ++ c :: (mdlTail r).1 = (pre ++ [c]) ++ (mdlTail r).1 := by simp
    rw [heq]
    exact ih (pre ++ [c]) (isLabel_push pre c hpre hlc)
  | case6 c r hne hlc =>
    intro pre hpre
    have hmd : mdlTail (c :: r) = ([], c :: r, 0) := by
      rw [mdlTail.eq_def]
      simp [hne, hlc]
    rw [hmd]
    simp [splitDot_label_chars pre (isLabel_chars pre hpre), hpre]

theorem toList_mk (l : List Char) : (String.mk l).toList = l := rfl

theorem matchCore_canon (l d rest : List Char) (h : matchCore l = some (d, rest)) :
    isCanonicalDomain (String.mk d) = true := by
  match l with
  | [] => simp [matchCore] at h
  | c :: r =>
    by_cases hc : isAlnum c = true
    · by_cases hk : (mdlTail r).2.2 = 0
      · simp [matchCore, hc, hk] at h
      · obtain ⟨hd, hrest⟩ : c :: (mdlTail r).1 = d ∧ (mdlTail r).2.1 = rest := by
          simpa [matchCore, hc, hk] using h
        subst hd
        obtain ⟨ia, il⟩ := mdlTail_canon r [c] (by simp [isLabel, hc])
        have hall : (splitDot (c :: (mdlTail r).1)).all isLabel = true := by simpa using ia
        have hlen : 2 ≤ (splitDot (c :: (mdlTail r).1)).length := by
          have h2 : (splitDot ([c] ++ (mdlTail r).1)).length = (mdlTail r).2.2 + 1 := il
          simp only [List.singleton_append] at h2
          omega
        simp [isCanonicalDomain, toList_mk, hall, hlen]
    · simp [matchCore, hc] at h

theorem wildcardGroup4_canon (l d : List Char) (h : wildcardGroup4 l = some d) :
    isCanonicalDomain (String.mk d) = true := by
  unfold wildcardGroup4 at h
  cases hm : matchCore (wildcardStrip l) with
  | none => rw [hm] at h; simp at h
  | some dr =>
    rw [hm] at h
    simp only [] at h
    by_cases hs : suffixOk dr.2 = true
    · have h2 : (if suffixOk dr.2 = true then some dr.1 else none) = some d := h
      rw [if_pos hs] at h2
      obtain rfl : dr.1 = d := by simpa using h2
      exact matchCore_canon (wildcardStrip l) dr.1 dr.2 (by rw [hm])
    · have h2 : (if suffixOk dr.2 = true then some dr.1 else none) = some d := h
      rw [if_neg hs] at h2
      simp at h2

theorem parseLine_canon (line d : String) (ds : List String)
    (h : parseLine line = .ok (some d, ds)) : isCanonicalDomain d = true := by
  unfold parseLine at h
  by_cases hig : ignoreMatch line.toList = true
  · rw [if_pos hig] at h
    simp at h
  · rw [if_neg hig] at h
    by_cases hds : domainSearch (tailFilter (headFilter line.toList)) = true
    · rw [if_pos hds] at h
      cases hw : wildcardGroup4 (tailFilter (headFilter line.toList)) with
      | none => rw [hw] at h; simp at h
      | some d0 =>
        rw [hw] at h
        simp only [Except.ok.injEq, Prod.mk.injEq, Option.some.injEq] at h
        obtain ⟨hd, -⟩ := h
        exact hd ▸ wildcardGroup4_canon _ d0 hw
    · rw [if_neg hds] at h
      simp at h

theorem parseLines_mem : ∀ (lines : List String) (doms : Finset String) (x : String),
    x ∈ exSet (parseLines doms lines) → x ∈ doms ∨ isCanonicalDomain x = true
  | [], doms, x, h => Or.inl (by simpa [parseLines, exSet] using h)
  | ln :: rest, doms, x, h => by
    cases hp : parseLine ln with
    | error e =>
      rw [show parseLines doms (ln :: rest) = .error (e, doms) from by
        simp [parseLines, hp]] at h
      exact Or.inl (by simpa [exSet] using h)
    | ok v =>
      obtain ⟨od, ds⟩ := v
      cases od with
      | some d =>
        have h' : x ∈ exSet (parseLines (insert d doms) rest) := by
          rw [show parseLines doms (ln :: rest) = parseLines (insert d doms) rest from by
            simp [parseLines, hp]] at h
          exact h
        rcases parseLines_mem rest (insert d doms) x h' with hmem | hcan
        · rcases Finset.mem_insert.mp hmem with rfl | hm
          · exact Or.inr (parseLine_canon ln x ds hp)
          · exact Or.inl hm
        · exact Or.inr hcan
      | none =>
        have h' : x ∈ exSet (parseLines doms rest) := by
          rw [show parseLines doms (ln :: rest) = parseLines doms rest from by
            simp [parseLines, hp]] at h
          exact h
        exact parseLines_mem rest doms x h'

theorem parse_mem (doms : Finset String) (data x : String)
    (h : x ∈ parseSet (parse doms data)) : x ∈ doms ∨ isCanonicalDomain x = true := by
  unfold parse at h
  cases hs : splitlines data with
  | nil =>
    rw [hs] at h
    exact Or.inl (by simpa [parseSet] using h)
  | cons first rest =>
    rw [hs] at h
    have h' : x ∈ parseSet (
        if startsWithL (("[AutoProxy").toList) first.toList = true then
          match parseLines doms (first :: rest) with
          | Except.ok s => Except.ok (true, s)
          | Except.error e => Except.error e
        else Except.ok (false, doms)) := h
    clear h
    by_cases hm : startsWithL (("[AutoProxy").toList) first.toList = true
    · rw [if_pos hm] at h'
      cases hp : parseLines doms (first :: rest) with
      | ok s =>
        rw [hp] at h'
        refine parseLines_mem (first :: rest) doms x ?_
        rw [hp]
        simpa [parseSet, exSet] using h'
      | error e =>
        rw [hp] at h'
        refine parseLines_mem (first :: rest) doms x ?_
        rw [hp]
        simpa [parseSet, exSet] using h'
    · rw [if_neg hm] at h'
      exact Or.inl (by simpa [parseSet] using h')

theorem googleDomains_canon : googleDomains.all isCanonicalDomain = true := by decide

theorem blogspotDomains_canon : blogspotDomains.all isCanonicalDomain = true := by decide

theorem addExtra_canon (s : Finset String) (x : String)
    (hmem : x ∈ addExtraDomains s) :
    x ∈ s ∨ isCanonicalDomain x = true := by
  unfold addExtraDomains at hmem
  rcases Finset.mem_insert.mp hmem with rfl | h2
  · exact Or.inr (by decide)
  rcases Finset.mem_union.mp h2 with h3 | hb
  · rcases Finset.mem_union.mp h3 with hs | hg
    · exact Or.inl hs
    · refine Or.inr ?_
      have hall := googleDomains_canon
      rw [List.all_eq_true] at hall
      exact hall x (List.mem_toFinset.mp hg)
  · refine Or.inr ?_
    have hall := blogspotDomains_canon
    rw [List.all_eq_true] at hall
    exact hall x (List.mem_toFinset.mp hb)

theorem parseLine_ignored (s : String) (h : ignoreMatch s.toList = true) :
    parseLine s = .ok (none, if isRegexRule s = true then [manualMsg s] else []) := by
  unfold parseLine
  rw [if_pos h]

/-- C1 (code bug): the claim says `_parse_line` never raises and that a line on
which the domain-presence test succeeds but the anchored wildcard extraction
fails is discarded with a diagnostic.  The code instead raises: on the line
`a.b.` the unanchored `domain_pattern` search succeeds, the anchored
`wildcard_pattern` search returns `None`, and `.groups()` on `None` raises an
`AttributeError` which propagates out of `_parse_line`. -/
theorem c1_extraction_inconsistency_raises :
    domainSearch (tailFilter (headFilter (("a.b.").toList))) = true ∧
    wildcardGroup4 (tailFilter (headFilter (("a.b.").toList))) = none ∧
    parseLine ("a.b.") = .error attributeErrorMsg := ⟨rfl, rfl, rfl⟩

/-- C2 counterexample: the claim says a document failing validation makes the
program return without producing an output file.  On an empty local gfwlist
file, `parse` reports a validation failure (`ok (false, _)`), yet `run`
ignores the returned value and still writes the raw output file. -/
theorem c2_output_written_despite_invalid_doc :
    parse ∅ ("") = Except.ok (false, (∅ : Finset String)) ∧
    runGfw false none (some ("gfwlist.txt")) ("") ("raw") =
      RunResult.finished true false (addExtraDomains ∅) := ⟨rfl, rfl⟩

/-- C2 (amended): if neither download mode nor a local source file is
specified, `run` prints a diagnostic and returns without producing an output
file; otherwise, once source text is available and parsing raises no
exception, it writes the chosen output file exactly when the format is `raw`
or `adguardhome`, regardless of whether the document passed validation. -/
theorem c2_run_mode_and_output (fetched : Option String) (content fmt fname : String) :
    runGfw false fetched none content fmt = RunResult.earlyReturn ∧
    (∀ b s, parse ∅ content = Except.ok (b, s) →
      runGfw false fetched (some fname) content fmt =
        RunResult.finished (fmt == "raw" || fmt == "adguardhome") false (addExtraDomains s)) ∧
    (∀ data b s, parse ∅ data = Except.ok (b, s) →
      runGfw true (some data) (some fname) content fmt =
        RunResult.finished (fmt == "raw" || fmt == "adguardhome") true (addExtraDomains s)) := by
  refine ⟨rfl, ?_, ?_⟩
  · intro b s h
    simp [runGfw, h]
  · intro data b s h
    simp [runGfw, h]

/-- C2 witness: the amended run behaviour at concrete arguments — no source
specified gives the early return, and an (invalid) empty local file still
produces the raw output. -/
theorem c2_run_mode_and_output_witness :
    runGfw false none none ("") ("raw") = RunResult.earlyReturn ∧
    runGfw false none (some ("gfwlist.txt")) ("") ("raw") =
      RunResult.finished true false (addExtraDomains ∅) := by
  refine ⟨(c2_run_mode_and_output none ("") ("raw") ("gfwlist.txt")).1, ?_⟩
  exact (c2_run_mode_and_output none ("") ("raw") ("gfwlist.txt")).2.1 false ∅ rfl

/-- C3: a line beginning with `/` never adds a domain.  If it survives the
ignore test, the head strip leaves the leading `/` in place, so the tail
strip erases the whole line, the domain-presence test fails, and the line is
discarded with the manual-review diagnostic; if the ignore test matches, the
same diagnostic is printed.  Either way `_parse_line` returns no domain, so
the regex-rule acceptance branch is unreachable. -/
theorem c3_regex_rules_never_extract (l : List Char) :
    tailFilter (headFilter ('/' :: l)) = [] ∧
    parseLine (String.mk ('/' :: l)) =
      .ok (none, [manualMsg (String.mk ('/' :: l))]) := by
  have ht : tailFilter (headFilter ('/' :: l)) = [] := rfl
  refine ⟨ht, ?_⟩
  cases h : ignoreMatch ('/' :: l) with
  | true => simp [parseLine, h, isRegexRule]
  | false => simp [parseLine, h, ht, domainSearch, isRegexRule]

/-- C4 counterexample: the claim says every document whose first line starts
with `[AutoProxy` is fully classified and parse returns success.  On the
two-line document `[AutoProxy]\na.b.` the second line triggers the
extraction inconsistency and the `AttributeError` propagates out of `parse`
instead of a success return. -/
theorem c4_marker_doc_raises :
    parse ∅ ("[AutoProxy]\na.b.") = .error (attributeErrorMsg, ∅) := rfl

/-- C4 (amended): `parse` returns the failure result `False` if and only if
the document has zero lines or the first line does not start with
`[AutoProxy`, and in that case the domain set is left unchanged; on every
other document, provided the line loop raises no exception, every line
(including the first) is classified and parse returns success with the
accumulated set. -/
theorem c4_parse_validation (doms : Finset String) (data : String) :
    (parse doms data = .ok (false, doms) ↔
      splitlines data = [] ∨
        ∃ first rest, splitlines data = first :: rest ∧
          startsWithL (("[AutoProxy").toList) first.toList = false) ∧
    (∀ first rest s, splitlines data = first :: rest →
        startsWithL (("[AutoProxy").toList) first.toList = true →
        parseLines doms (first :: rest) = .ok s →
        parse doms data = .ok (true, s)) := by
  constructor
  · constructor
    · intro h
      unfold parse at h
      cases hs : splitlines data with
      | nil => exact Or.inl rfl
      | cons f r =>
        rw [hs] at h
        have h' : (if startsWithL (("[AutoProxy").toList) f.toList = true then
            match parseLines doms (f :: r) with
            | Except.ok s => Except.ok (true, s)
            | Except.error e => Except.error e
          else Except.ok (false, doms)) = Except.ok (false, doms) := h
        by_cases hm : startsWithL (("[AutoProxy").toList) f.toList = true
        · rw [if_pos hm] at h'
          cases hp : parseLines doms (f :: r) with
          | ok s => rw [hp] at h'; simp at h'
          | error e => rw [hp] at h'; simp at h'
        · exact Or.inr ⟨f, r, rfl, by simpa using hm⟩
    · intro h
      unfold parse
      rcases h with h | ⟨f, r, hs, hm⟩
      · rw [h]
      · rw [hs]
        have hm' : ¬ startsWithL (("[AutoProxy").toList) f.toList = true := by
          intro hx
          rw [hm] at hx
          exact Bool.noConfusion hx
        show (if startsWithL (("[AutoProxy").toList) f.toList = true then
            match parseLines doms (f :: r) with
            | Except.ok s => Except.ok (true, s)
            | Except.error e => Except.error e
          else Except.ok (false, doms)) = Except.ok (false, doms)
        rw [if_neg hm']
  · intro f r s hs hm hp
    unfold parse
    rw [hs]
    show (if startsWithL (("[AutoProxy").toList) f.toList = true then
        match parseLines doms (f :: r) with
        | Except.ok s => Except.ok (true, s)
        | Except.error e => Except.error e
      else Except.ok (false, doms)) = Except.ok (true, s)
    rw [if_pos hm, hp]

/-- C4 witness: the amended parse behaviour at concrete documents — a
marker-less document fails with the set unchanged, and `[AutoProxy]` alone
succeeds with an empty set. -/
theorem c4_parse_validation_witness :
    parse ∅ ("hello") = .ok (false, ∅) ∧ parse ∅ ("[AutoProxy]") = .ok (true, ∅) :=
  ⟨(c4_parse_validation ∅ ("hello")).1.mpr (Or.inr ⟨("hello"), [], rfl, rfl⟩),
   (c4_parse_validation ∅ ("[AutoProxy]")).2 ("[AutoProxy]") [] ∅ rfl rfl rfl⟩

/-- C5: after parsing any document starting from an empty set and then
augmenting, every member of the domain set matches the canonical shape: two
or more dot-separated labels, each starting alphanumeric and continuing with
alphanumerics or hyphens, with no wildcard characters and no leading or
trailing dot.  (Uniqueness is intrinsic to the `Finset` model of the Python
set.) -/
theorem c5_domainset_canonical (data d : String)
    (h : d ∈ addExtraDomains (parseSet (parse ∅ data))) : isCanonicalDomain d = true := by
  rcases addExtra_canon _ d h with hmem | hc
  · rcases parse_mem ∅ data d hmem with h0 | hc2
    · exact absurd h0 (Finset.not_mem_empty d)
    · exact hc2
  · exact hc

/-- C5 witness: a concrete member of the augmented set, checked canonical
through the invariant theorem. -/
theorem c5_domainset_canonical_witness :
    ("twimg.edgesuite.net") ∈ addExtraDomains (parseSet (parse ∅ ("x"))) ∧
    isCanonicalDomain ("twimg.edgesuite.net") = true :=
  ⟨Finset.mem_insert_self _ _,
   c5_domainset_canonical ("x") ("twimg.edgesuite.net") (Finset.mem_insert_self _ _)⟩

/-- C6: a line starting with `!` is classified as none with no diagnostic; a
line starting with `@@` is classified as none; a line containing a
dotted-quad IPv4 literal anywhere is classified as none; and a line
containing `[` anywhere is classified as none. -/
theorem c6_ignored_line_classes (l : List Char) (s : String) :
    parseLine (String.mk ('!' :: l)) = .ok (none, []) ∧
    parseLine (String.mk ('@' :: '@' :: l)) = .ok (none, []) ∧
    (hasIPv4 s.toList = true → ∃ ds, parseLine s = .ok (none, ds)) ∧
    (s.toList.contains '[' = true → ∃ ds, parseLine s = .ok (none, ds)) := by
  refine ⟨?_, ?_, ?_, ?_⟩
  · have hig : ignoreMatch ('!' :: l) = true := rfl
    simp [parseLine, hig, isRegexRule]
  · have hig : ignoreMatch ('@' :: '@' :: l) = true := by
      simp [ignoreMatch, startsWithL]
    simp [parseLine, hig, isRegexRule]
  · intro h
    exact ⟨_, parseLine_ignored s (by simp [ignoreMatch, show hasIPv4 s.data = true from h])⟩
  · intro h
    exact ⟨_, parseLine_ignored s (by
      simp [ignoreMatch, show ('[' ∈ s.data) from by simpa using h])⟩

/-- C6 witness: the ignore classes at concrete lines, with the IPv4 and
bracket hypotheses discharged on `1.2.3.4[`. -/
theorem c6_ignored_line_classes_witness :
    hasIPv4 (("1.2.3.4[").toList) = true ∧
    (("1.2.3.4[").toList.contains '[') = true ∧
    parseLine ("!") = .ok (none, []) ∧
    (∃ ds, parseLine ("1.2.3.4[") = .ok (none, ds)) := by
  refine ⟨by decide, by decide, ?_, ?_⟩
  · exact (c6_ignored_line_classes [] ("1.2.3.4[")).1
  · exact (c6_ignored_line_classes [] ("1.2.3.4[")).2.2.1 (by decide)

/-- C7: classifying `*.example.com` and `example.com*` both extract
`example.com` — the optional leading wildcard segment and trailing wildcard
suffix are stripped and only the core capture group is kept. -/
theorem c7_wildcard_extraction :
    parseLine ("*.example.com") = .ok (some ("example.com"), []) ∧
    parseLine ("example.com*") = .ok (some ("example.com"), []) := ⟨rfl, rfl⟩

/-- C8: classifying `||ads.example.com/path` extracts `ads.example.com` and
classifying `|http://example.org` extracts `example.org` — anchor bars and
an optional scheme are stripped from the head, and everything from the first
`/` (or `%2F`) onward is stripped from the tail, before extraction. -/
theorem c8_anchor_and_path_stripping :
    parseLine ("||ads.example.com/path") = .ok (some ("ads.example.com"), []) ∧
    parseLine ("|http://example.org") = .ok (some ("example.org"), []) := ⟨rfl, rfl⟩

/-- C9: classifying the regex-style rule `/some\.regex\.pattern/` returns
none and emits the manual-review diagnostic naming the original line. -/
theorem c9_regex_rule_diagnostic :
    parseLine ("/some\\.regex\\.pattern/") =
      .ok (none, [manualMsg ("/some\\.regex\\.pattern/")]) := rfl

/-- C10: parsing the two-line document `[AutoProxy]` + `||foo.bar.com/x` and
augmenting yields exactly `foo.bar.com` together with every hard-coded
google-family domain, every hard-coded blogspot-family domain, and
`twimg.edgesuite.net`. -/
theorem c10_end_to_end :
    addExtraDomains (parseSet (parse ∅ ("[AutoProxy]\n||foo.bar.com/x"))) =
      ({("foo.bar.com")} : Finset String) ∪ googleDomains.toFinset ∪
        blogspotDomains.toFinset ∪ {("twimg.edgesuite.net")} := by
  have h : parseSet (parse ∅ ("[AutoProxy]\n||foo.bar.com/x")) =
      ({("foo.bar.com")} : Finset String) := rfl
  rw [h]
  show insert ("twimg.edgesuite.net")
      ((({("foo.bar.com")} : Finset String) ∪ googleDomains.toFinset) ∪
        blogspotDomains.toFinset) = _
  rw [Finset.insert_eq, Finset.union_comm]
